import Mathlib

/-!
Verification of the btc-spark-keys-gen library (src/index.ts, bundled in
src/tsup.config.ts after the build config).

Modelling conventions:
* Byte arrays (Uint8Array) are lists of natural numbers (`Bytes`).
* The BIP32 HD-key primitive (from scure/bip32) and the secp256k1 curve
  primitives (noble/curves, scure/btc-signer, tiny-secp256k1) are external
  collaborators of the library; they are modelled as explicit ports
  (`Bip32`, `CurveOps`) that every derivation definition takes as a
  parameter, mirroring the module imports of the source.
* The bech32m primitive (the bech32 npm package, functions `toWords`,
  `fromWords`, `encode`, `decode` with the default LIMIT of 90) is
  implemented concretely below, following that library byte for byte, so
  that the fixed address vectors of the test suite can be evaluated.
  JavaScript 32-bit wrap-around in the conversion loops cannot change any
  extracted value (only the low 13 bits of the accumulator are consumed),
  so plain `Nat` arithmetic is an exact model.
* Thrown JS exceptions are modelled by `Except SparkError`; each throw
  site maps to the error-taxonomy constructor the specification assigns
  to it, carrying the message of the source where a claim mentions it.
-/

abbrev Bytes := List Nat

/-- Error taxonomy of the library, one constructor per failure family. -/
inductive SparkError where
  | seedDerivationError (msg : String)
  | publicKeyFormatError
  | networkError
  | unknownPrefixError
  | addressFormatError (msg : String)
  deriving DecidableEq, Repr

/-- Network selector of getSparkAddressFromPublicKey. -/
inductive Network where
  | mainnet
  | regtest
  deriving DecidableEq, Repr

/-! ## bech32m primitive (bech32 npm package, ENCODING_CONST 0x2bc830a3) -/

def bech32Charset : List Char := "qpzry9x8gf2tvdw0s3jn54khce6mua7l".toList

/-- Value of a data character, ALPHABET_MAP lookup of the library. -/
def bech32CharValue (c : Char) : Option Nat :=
  List.findIdx? (fun x => x = c) bech32Charset

/-- Character for a 5-bit value, ALPHABET.charAt of the library. -/
def bech32Char (x : Nat) : Char := bech32Charset.getD x ' '

def bech32mConst : Nat := 0x2bc830a3

/-- Case mapping of the JS toLowerCase and toUpperCase calls of the
bech32 library, written structurally over the character list so that it
evaluates inside the kernel (Char.toLower only maps ASCII letters, which
is all the library ever feeds it). -/
def strToLower (s : String) : String := String.mk (s.toList.map Char.toLower)

/-- Upper-case companion of strToLower. -/
def strToUpper (s : String) : String := String.mk (s.toList.map Char.toUpper)

/-- polymodStep of the bech32 library. All intermediate values stay below
2 to the 30, so JS 32-bit arithmetic agrees with Nat arithmetic. -/
def polymodStep (pre : Nat) : Nat :=
  let b := pre >>> 25
  ((pre &&& 0x1ffffff) <<< 5)
    ^^^ (if b &&& 1 = 1 then 0x3b6a57b2 else 0)
    ^^^ (if (b >>> 1) &&& 1 = 1 then 0x26508e6d else 0)
    ^^^ (if (b >>> 2) &&& 1 = 1 then 0x1ea119fa else 0)
    ^^^ (if (b >>> 3) &&& 1 = 1 then 0x3d4233dd else 0)
    ^^^ (if (b >>> 4) &&& 1 = 1 then 0x2a1462b3 else 0)

/-- prefixChk of the bech32 library: checksum state of the human readable
part, or an error when it holds a character outside 33..126. -/
def bech32HrpChk (hrp : String) : Except String Nat :=
  let cs := hrp.toList
  if cs.any (fun c => c.toNat < 33 || 126 < c.toNat) then
    .error "Invalid prefix"
  else
    let chk1 := cs.foldl (fun chk c => polymodStep chk ^^^ (c.toNat >>> 5)) 1
    let chk2 := polymodStep chk1
    .ok (cs.foldl (fun chk c => polymodStep chk ^^^ (c.toNat &&& 31)) chk2)

/-- Inner while loop of the convert routine of the bech32 library: while at
least `outBits` bits are buffered, emit the next `outBits`-bit group. The
`fuel` argument only bounds the iteration count (the loop strictly
decreases `bits`, so `fuel = bits` suffices). -/
def drainLoop (outBits maxV value : Nat) : Nat → Nat → List Nat × Nat
  | 0, bits => ([], bits)
  | fuel + 1, bits =>
    if outBits ≤ bits then
      let bits2 := bits - outBits
      let r := drainLoop outBits maxV value fuel bits2
      (((value >>> bits2) &&& maxV) :: r.1, r.2)
    else ([], bits)

/-- convert(data, 8, 5, true) of the bech32 library, the recursion over the
input bytes with the bit accumulator. -/
def toWordsGo : List Nat → Nat → Nat → List Nat
  | [], value, bits =>
    if 0 < bits then [(value <<< (5 - bits)) &&& 31] else []
  | b :: rest, value, bits =>
    let value2 := (value <<< 8) ||| b
    let r := drainLoop 5 31 value2 (bits + 8) (bits + 8)
    r.1 ++ toWordsGo rest value2 r.2

/-- toWords of the bech32 library. -/
def bech32ToWords (bytes : Bytes) : List Nat := toWordsGo bytes 0 0

/-- convert(words, 5, 8, false) of the bech32 library; the trailing checks
reject excess or non-zero padding. -/
def fromWordsGo : List Nat → Nat → Nat → Except String (List Nat)
  | [], value, bits =>
    if 5 ≤ bits then .error "Excess padding"
    else if ((value <<< (8 - bits)) &&& 255) ≠ 0 then .error "Non-zero padding"
    else .ok []
  | w :: rest, value, bits =>
    let value2 := (value <<< 5) ||| w
    let r := drainLoop 8 255 value2 (bits + 5) (bits + 5)
    match fromWordsGo rest value2 r.2 with
    | .error e => .error e
    | .ok bs => .ok (r.1 ++ bs)

/-- fromWords of the bech32 library. -/
def bech32FromWords (ws : List Nat) : Except String (List Nat) := fromWordsGo ws 0 0

/-- Word loop of encode: checks each word is 5 bits, folds it into the
checksum state and appends its character. -/
def encodeWords (chk : Nat) (acc : String) : List Nat → Except String (Nat × String)
  | [] => .ok (chk, acc)
  | x :: rest =>
    if x >>> 5 ≠ 0 then .error "Non 5-bit word"
    else encodeWords (polymodStep chk ^^^ x) (acc.push (bech32Char x)) rest

/-- encode of the bech32 library in bech32m mode, with the default LIMIT
of 90 that the source always uses. -/
def bech32mEncode (hrp : String) (words : List Nat) : Except String String :=
  if 90 < hrp.length + 7 + words.length then .error "Exceeds length limit"
  else
    let hrpL := strToLower hrp
    match bech32HrpChk hrpL with
    | .error e => .error e
    | .ok chk0 =>
      match encodeWords chk0 (hrpL ++ "1") words with
      | .error e => .error e
      | .ok (chk1, acc) =>
        let chk2 := polymodStep (polymodStep (polymodStep (polymodStep
          (polymodStep (polymodStep chk1))))) ^^^ bech32mConst
        let checksum := (List.range 6).map
          (fun i => bech32Char ((chk2 >>> ((5 - i) * 5)) &&& 31))
        .ok (acc ++ String.mk checksum)

/-- Index of the last separator character 1, lastIndexOf of JS. -/
def lastIdxOfSep (cs : List Char) : Option Nat :=
  match List.findIdx? (fun c => c = '1') cs.reverse with
  | none => none
  | some j => some (cs.length - 1 - j)

/-- Data-character loop of decode: folds every character into the checksum
state; all but the final six characters contribute data words. -/
def decodeWords (chk : Nat) : List Char → Except String (Nat × List Nat)
  | [] => .ok (chk, [])
  | c :: rest =>
    match bech32CharValue c with
    | none => .error "Unknown character"
    | some v =>
      match decodeWords (polymodStep chk ^^^ v) rest with
      | .error e => .error e
      | .ok (chkEnd, ws) =>
        .ok (chkEnd, if 6 ≤ rest.length then v :: ws else ws)

/-- decode of the bech32 library in bech32m mode with the default LIMIT of
90. Error messages keep the fixed part of the library messages. -/
def bech32mDecode (str : String) : Except String (String × List Nat) :=
  if str.length < 8 then .error "too short"
  else if 90 < str.length then .error "Exceeds length limit"
  else
    let lowered := strToLower str
    if str ≠ lowered ∧ str ≠ strToUpper str then .error "Mixed-case string"
    else
      let cs := lowered.toList
      match lastIdxOfSep cs with
      | none => .error "No separator character"
      | some split =>
        if split = 0 then .error "Missing prefix"
        else
          let hrp := String.mk (cs.take split)
          let dataChars := cs.drop (split + 1)
          if dataChars.length < 6 then .error "Data too short"
          else
            match bech32HrpChk hrp with
            | .error e => .error e
            | .ok chk0 =>
              match decodeWords chk0 dataChars with
              | .error e => .error e
              | .ok (chkEnd, ws) =>
                if chkEnd ≠ bech32mConst then .error "Invalid checksum"
                else .ok (hrp, ws)

/-! ## Data model and external ports of the derivation engine -/

/-- HD tree node of the scure/bip32 primitive: its key material may be
absent (null in the source); remaining node state (chain code, depth,
index) is opaque to the library and folded into `rest`. -/
structure HDKey where
  privateKey : Option Bytes
  publicKey : Option Bytes
  rest : Bytes
  deriving DecidableEq, Repr

/-- Port for the scure/bip32 primitive: HDKey.fromMasterSeed and
HDKey.derive, the only operations the source calls on it. -/
structure Bip32 where
  fromMasterSeed : Bytes → HDKey
  derive : HDKey → String → HDKey

/-- Port for the curve primitives the source imports:
secp256k1.getPublicKey (noble/curves), taprootTweakPrivKey
(scure/btc-signer) and privateNegate (tiny-secp256k1). -/
structure CurveOps where
  getPublicKey : Bytes → Bytes
  privateNegate : Bytes → Bytes
  taprootTweakPrivKey : Bytes → Bytes

structure KeyPair where
  privateKey : Bytes
  publicKey : Bytes
  deriving DecidableEq, Repr

structure DerivedHDKey where
  hdKey : HDKey
  privateKey : Bytes
  publicKey : Bytes
  deriving DecidableEq, Repr

structure DerivedKeys where
  identityKey : KeyPair
  signingHDKey : DerivedHDKey
  depositKey : KeyPair
  staticDepositHDKey : DerivedHDKey
  deriving DecidableEq, Repr

/-- Instance state of a class produced by
getDerivationPathKeysGeneratorClass: the constructor stores the
useAddressIndex flag, nothing else. -/
structure DerivationPathKeysGenerator where
  useAddressIndex : Bool
  deriving DecidableEq, Repr

/-! ## HD key derivation engine -/

/-- Path resolution of the factory classes: the selected template with
every placeholder replaced by the account number, the replace call of the
source (the regex with the g flag replaces every occurrence, as
String.replace does). -/
def resolvedTemplatePath (derivationPathTemplateUseAddressIndex
    derivationPathTemplateUseAccount : String) (useAddressIndex : Bool)
    (accountNumber : Nat) : String :=
  (if useAddressIndex then derivationPathTemplateUseAddressIndex
   else derivationPathTemplateUseAccount).replace "?" (toString accountNumber)

/-- Path resolution of TaprootOutputKeysGenerator, built by template
literals in the source. -/
def taprootResolvedPath (useAddressIndex : Bool) (accountNumber : Nat) : String :=
  if useAddressIndex then "m/86\x27/0\x27/0\x27/0/" ++ toString accountNumber
  else "m/86\x27/0\x27/" ++ toString accountNumber ++ "\x27/0/0"

/-- deriveKeysFromSeed of the class returned by
getDerivationPathKeysGeneratorClass, parameterised by the two path
templates the factory closes over. In the branch where the combined
null-check of the source is false, TypeScript narrows every component to
non-null; `Option.getD []` renders that narrowing. -/
def deriveKeysFromSeedGeneric (B : Bip32)
    (derivationPathTemplateUseAddressIndex derivationPathTemplateUseAccount : String)
    (g : DerivationPathKeysGenerator) (seed : Bytes) (accountNumber : Nat) :
    Except SparkError DerivedKeys :=
  let hdkey := B.fromMasterSeed seed
  if hdkey.privateKey.isNone || hdkey.publicKey.isNone then
    .error (.seedDerivationError "Failed to derive keys from seed")
  else
    let derivationPath :=
      resolvedTemplatePath derivationPathTemplateUseAddressIndex
        derivationPathTemplateUseAccount g.useAddressIndex accountNumber
    let identityKey := B.derive hdkey derivationPath
    let signingKey := B.derive hdkey (derivationPath ++ "/1\x27")
    let depositKey := B.derive hdkey (derivationPath ++ "/2\x27")
    let staticDepositKey := B.derive hdkey (derivationPath ++ "/3\x27")
    if identityKey.privateKey.isNone || identityKey.publicKey.isNone ||
       signingKey.privateKey.isNone || signingKey.publicKey.isNone ||
       depositKey.privateKey.isNone || depositKey.publicKey.isNone ||
       staticDepositKey.privateKey.isNone || staticDepositKey.publicKey.isNone then
      .error (.seedDerivationError "Failed to derive all required keys from seed")
    else
      .ok {
        identityKey := {
          privateKey := identityKey.privateKey.getD []
          publicKey := identityKey.publicKey.getD [] }
        signingHDKey := {
          hdKey := signingKey
          privateKey := signingKey.privateKey.getD []
          publicKey := signingKey.publicKey.getD [] }
        depositKey := {
          privateKey := depositKey.privateKey.getD []
          publicKey := depositKey.publicKey.getD [] }
        staticDepositHDKey := {
          hdKey := staticDepositKey
          privateKey := staticDepositKey.privateKey.getD []
          publicKey := staticDepositKey.publicKey.getD [] } }

/-- NativeSegwitKeysGenerator: factory instantiation at the 84h templates
(the source template strings, with the hardened marks as apostrophes). -/
def nativeSegwitDeriveKeysFromSeed (B : Bip32) :
    DerivationPathKeysGenerator → Bytes → Nat → Except SparkError DerivedKeys :=
  deriveKeysFromSeedGeneric B "m/84\x27/0\x27/0\x27/0/?" "m/84\x27/0\x27/?\x27/0/0"

/-- WrappedSegwitKeysGenerator: factory instantiation at the 49h templates. -/
def wrappedSegwitDeriveKeysFromSeed (B : Bip32) :
    DerivationPathKeysGenerator → Bytes → Nat → Except SparkError DerivedKeys :=
  deriveKeysFromSeedGeneric B "m/49\x27/0\x27/0\x27/0/?" "m/49\x27/0\x27/?\x27/0/0"

/-- LegacyBitcoinKeysGenerator: factory instantiation at the 44h templates. -/
def legacyBitcoinDeriveKeysFromSeed (B : Bip32) :
    DerivationPathKeysGenerator → Bytes → Nat → Except SparkError DerivedKeys :=
  deriveKeysFromSeedGeneric B "m/44\x27/0\x27/0\x27/0/?" "m/44\x27/0\x27/?\x27/0/0"

/-- Instance state of TaprootOutputKeysGenerator. -/
structure TaprootOutputKeysGenerator where
  useAddressIndex : Bool
  deriving DecidableEq, Repr

/-- TaprootOutputKeysGenerator constructed with no argument: the
constructor declares useAddressIndex with default value false. -/
def taprootOutputKeysGeneratorDefault : TaprootOutputKeysGenerator :=
  { useAddressIndex := false }

/-- TaprootOutputKeysGenerator.deriveKeysFromSeed. The source reads
taprootInternalKey.privateKey with a TypeScript non-null assertion and no
check; `Option.getD []` renders that assertion. The source mutates
tweakedPrivateKey and tweakedPublicKey inside a single parity check; the
two equal-condition lets below render the two assignments. -/
def taprootDeriveKeysFromSeed (B : Bip32) (C : CurveOps)
    (g : TaprootOutputKeysGenerator) (seed : Bytes) (accountNumber : Nat) :
    Except SparkError DerivedKeys :=
  let hdkey := B.fromMasterSeed seed
  if hdkey.privateKey.isNone || hdkey.publicKey.isNone then
    .error (.seedDerivationError "Failed to derive keys from seed")
  else
    let derivationPath := taprootResolvedPath g.useAddressIndex accountNumber
    let taprootInternalKey := B.derive hdkey derivationPath
    let tweakedPrivateKey0 := C.taprootTweakPrivKey (taprootInternalKey.privateKey.getD [])
    let tweakedPublicKey0 := C.getPublicKey tweakedPrivateKey0
    let tweakedPrivateKey :=
      if tweakedPublicKey0.headD 0 = 3 then C.privateNegate tweakedPrivateKey0
      else tweakedPrivateKey0
    let tweakedPublicKey :=
      if tweakedPublicKey0.headD 0 = 3 then C.getPublicKey tweakedPrivateKey
      else tweakedPublicKey0
    let identityKey : KeyPair :=
      { publicKey := tweakedPublicKey, privateKey := tweakedPrivateKey }
    let signingKey := B.derive hdkey (derivationPath ++ "/1\x27")
    let depositKey := B.derive hdkey (derivationPath ++ "/2\x27")
    let staticDepositKey := B.derive hdkey (derivationPath ++ "/3\x27")
    if signingKey.privateKey.isNone || signingKey.publicKey.isNone ||
       depositKey.privateKey.isNone || depositKey.publicKey.isNone ||
       staticDepositKey.privateKey.isNone || staticDepositKey.publicKey.isNone then
      .error (.seedDerivationError "Failed to derive all required keys from seed")
    else
      .ok {
        identityKey := {
          privateKey := identityKey.privateKey
          publicKey := identityKey.publicKey }
        signingHDKey := {
          hdKey := signingKey
          privateKey := signingKey.privateKey.getD []
          publicKey := signingKey.publicKey.getD [] }
        depositKey := {
          privateKey := depositKey.privateKey.getD []
          publicKey := depositKey.publicKey.getD [] }
        staticDepositHDKey := {
          hdKey := staticDepositKey
          privateKey := staticDepositKey.privateKey.getD []
          publicKey := staticDepositKey.publicKey.getD [] } }

/-! ## Spark address codec -/

/-- Propagation of the result of a delegated bech32m encode call: a
success is returned as is, a thrown library error propagates as an
address-format failure. -/
def liftBechResult (r : Except String String) : Except SparkError String :=
  match r with
  | .ok s => .ok s
  | .error e => .error (.addressFormatError e)

/-- getSparkAddressFromPublicKey. A failure of the delegated bech32m
encode would propagate as a thrown library error (it cannot occur for a
33-byte key, proved below). -/
def getSparkAddressFromPublicKey (publicKey : Bytes) (network : Network) :
    Except SparkError String :=
  if publicKey.length ≠ 33 then .error .publicKeyFormatError
  else
    let words := bech32ToWords (10 :: 33 :: publicKey)
    liftBechResult
      (bech32mEncode (if network = Network.mainnet then "spark" else "sparkrt") words)

/-- Continuation of getSparkAddressFromTaproot after the two prefix
checks: witness-version check, payload decoding, length check and the
final encoding. The JS expression words[0] on an empty array yields
undefined, which is not strictly equal to 1; `headD 99` reproduces that
comparison with a default that is never 1. -/
def sparkFromTaprootWords (hrp : String) (words : List Nat) :
    Except SparkError String :=
  if words.headD 99 ≠ 1 then
    .error (.addressFormatError "Not valid version for taproot address")
  else
    match bech32FromWords (words.drop 1) with
    | .error e => .error (.addressFormatError e)
    | .ok addressBytes =>
      if addressBytes.length ≠ 32 then
        .error (.addressFormatError "Invalid public key length")
      else
        let sparkWords := bech32ToWords (10 :: 33 :: 2 :: addressBytes)
        let sparkHrp := if hrp = "bc" then "spark" else "sparkrt"
        liftBechResult (bech32mEncode sparkHrp sparkWords)

/-- getSparkAddressFromTaproot: bech32m decode, the two prefix checks in
source order, then the staged continuation above. -/
def getSparkAddressFromTaproot (taprootAddress : String) :
    Except SparkError String :=
  match bech32mDecode taprootAddress with
  | .error e => .error (.addressFormatError e)
  | .ok (hrp, words) =>
    if hrp = "tb" then .error .networkError
    else if hrp ≠ "bc" ∧ hrp ≠ "bcrt" then .error .unknownPrefixError
    else sparkFromTaprootWords hrp words

/-! ## Concrete backends used to instantiate the ports in examples

The derivation theorems below are parametric in the BIP32 and curve
ports; these small executable backends instantiate them. `toyCurve`
satisfies the compressed-key axioms of secp256k1 that the even-y claim
needs (33-byte output, leading byte 2 or 3, negation flips the leading
byte). `brokenBip32` returns a node without a public key exactly at the
account-form Taproot path for account 0, and complete nodes elsewhere. -/

def toyCurve : CurveOps where
  getPublicKey := fun k => (2 + k.length % 2) :: List.replicate 32 0
  privateNegate := fun k => 0 :: k
  taprootTweakPrivKey := fun k => 1 :: k

def toyBip32 : Bip32 where
  fromMasterSeed := fun seed =>
    { privateKey := some seed, publicKey := some seed, rest := [] }
  derive := fun node _path =>
    { privateKey := some (0 :: node.privateKey.getD [])
      publicKey := some (0 :: node.publicKey.getD [])
      rest := [] }

def brokenBip32 : Bip32 where
  fromMasterSeed := fun seed =>
    { privateKey := some seed, publicKey := some seed, rest := [] }
  derive := fun _node path =>
    if path = "m/86\x27/0\x27/0\x27/0/0" then
      { privateKey := some [7], publicKey := none, rest := [] }
    else
      { privateKey := some [1], publicKey := some [1], rest := [] }

lemma toyCurve_publicKey_length (k : Bytes) :
    (toyCurve.getPublicKey k).length = 33 := by
  simp [toyCurve]

lemma toyCurve_publicKey_headD (k : Bytes) :
    (toyCurve.getPublicKey k).headD 0 = 2 ∨ (toyCurve.getPublicKey k).headD 0 = 3 := by
  simp only [toyCurve, List.headD_cons]
  omega

lemma toyCurve_negate_flips (k : Bytes) :
    (toyCurve.getPublicKey (toyCurve.privateNegate k)).headD 0
      ≠ (toyCurve.getPublicKey k).headD 0 := by
  simp only [toyCurve, List.headD_cons, List.length_cons]
  omega

/-! ## Helper lemmas on the bech32m primitive -/

lemma drainLoop_words_le (o m v : Nat) :
    ∀ fuel bits w, w ∈ (drainLoop o m v fuel bits).1 → w ≤ m := by
  intro fuel
  induction fuel with
  | zero => intro bits w hw; simp [drainLoop] at hw
  | succ f ih =>
    intro bits w hw
    by_cases h : o ≤ bits
    · simp only [drainLoop, if_pos h, List.mem_cons] at hw
      rcases hw with h1 | h1
      · exact h1 ▸ Nat.and_le_right
      · exact ih _ _ h1
    · simp [drainLoop, if_neg h] at hw

lemma toWordsGo_words_le :
    ∀ data v bits w, w ∈ toWordsGo data v bits → w ≤ 31 := by
  intro data
  induction data with
  | nil =>
    intro v bits w hw
    simp only [toWordsGo] at hw
    split at hw
    · simp only [List.mem_singleton] at hw
      exact hw ▸ Nat.and_le_right
    · simp at hw
  | cons b rest ih =>
    intro v bits w hw
    simp only [toWordsGo, List.mem_append] at hw
    rcases hw with h1 | h1
    · exact drainLoop_words_le _ _ _ _ _ _ h1
    · exact ih _ _ _ h1

lemma drainLoop5_spec (v : Nat) :
    ∀ fuel bits, bits ≤ fuel →
      (drainLoop 5 31 v fuel bits).1.length = bits / 5
        ∧ (drainLoop 5 31 v fuel bits).2 = bits % 5 := by
  intro fuel
  induction fuel with
  | zero =>
    intro bits hb
    interval_cases bits
    simp [drainLoop]
  | succ f ih =>
    intro bits hb
    by_cases h : 5 ≤ bits
    · have := ih (bits - 5) (by omega)
      simp only [drainLoop, if_pos h, List.length_cons]
      refine ⟨?_, ?_⟩
      · rw [this.1]; omega
      · rw [this.2]; omega
    · simp only [drainLoop, if_neg h, List.length_nil]
      omega

lemma toWordsGo_length :
    ∀ data v bits, bits < 5 →
      (toWordsGo data v bits).length = (8 * data.length + bits + 4) / 5 := by
  intro data
  induction data with
  | nil =>
    intro v bits hb
    simp only [toWordsGo, List.length_nil]
    split <;> simp <;> omega
  | cons b rest ih =>
    intro v bits hb
    have hd := drainLoop5_spec ((v <<< 8) ||| b) (bits + 8) (bits + 8) (le_refl _)
    simp only [toWordsGo, List.length_append, List.length_cons]
    rw [hd.1, hd.2, ih _ _ (by omega)]
    omega

lemma bech32ToWords_length (bytes : Bytes) :
    (bech32ToWords bytes).length = (8 * bytes.length + 4) / 5 := by
  simpa using toWordsGo_length bytes 0 0 (by omega)

lemma encodeWords_ok :
    ∀ ws chk acc, (∀ w ∈ ws, w ≤ 31) →
      ∃ p, encodeWords chk acc ws = Except.ok p := by
  intro ws
  induction ws with
  | nil => intro chk acc _; exact ⟨_, rfl⟩
  | cons x rest ih =>
    intro chk acc hws
    have hx : x >>> 5 = 0 := by
      rw [Nat.shiftRight_eq_div_pow]
      exact Nat.div_eq_of_lt (by have := hws x (by simp); omega)
    simp only [encodeWords, hx, ne_eq, not_true_eq_false, if_false]
    exact ih _ _ (fun w hw => hws w (by simp [hw]))

lemma bech32mEncode_ok (hrp : String) (ws : List Nat)
    (hlim : hrp.length + 7 + ws.length ≤ 90)
    (hws : ∀ w ∈ ws, w ≤ 31)
    (hchk : ∃ c, bech32HrpChk (strToLower hrp) = Except.ok c) :
    ∃ s, bech32mEncode hrp ws = Except.ok s := by
  obtain ⟨c, hc⟩ := hchk
  obtain ⟨⟨chk1, acc⟩, he⟩ := encodeWords_ok ws c (strToLower hrp ++ "1") hws
  simp only [bech32mEncode, hc, he]
  rw [if_neg (by omega)]
  exact ⟨_, rfl⟩

lemma sparkEncode_ok (payload : Bytes) (hrp : String)
    (hlen : payload.length ≤ 36)
    (hhrp : hrp = "spark" ∨ hrp = "sparkrt") :
    ∃ s, bech32mEncode hrp (bech32ToWords payload) = Except.ok s := by
  apply bech32mEncode_ok
  · have hw := bech32ToWords_length payload
    have h5 : ("spark" : String).length = 5 := rfl
    have h7 : ("sparkrt" : String).length = 7 := rfl
    rcases hhrp with h | h <;> subst h <;> rw [hw] <;> omega
  · intro w hw
    exact toWordsGo_words_le payload 0 0 w hw
  · rcases hhrp with h | h <;> subst h
    · exact ⟨54082545, by rfl⟩
    · exact ⟨345908887, by rfl⟩

lemma liftBechResult_ne (r : Except String String) :
    liftBechResult r ≠ Except.error SparkError.networkError
      ∧ liftBechResult r ≠ Except.error SparkError.unknownPrefixError := by
  cases r <;> simp [liftBechResult]

lemma sparkFromTaprootWords_ne (hrp : String) (words : List Nat) :
    sparkFromTaprootWords hrp words ≠ Except.error SparkError.networkError
      ∧ sparkFromTaprootWords hrp words ≠ Except.error SparkError.unknownPrefixError := by
  unfold sparkFromTaprootWords
  constructor
  · intro h
    split at h
    all_goals try split at h
    all_goals try split at h
    all_goals first
      | exact absurd h (liftBechResult_ne _).1
      | simp at h
  · intro h
    split at h
    all_goals try split at h
    all_goals try split at h
    all_goals first
      | exact absurd h (liftBechResult_ne _).2
      | simp at h

/-- C4: getSparkAddressFromPublicKey fails with PublicKeyFormatError if
and only if the key length differs from 33; on a 33-byte key it returns
the bech32m encoding of the payload 0x0a 0x21 followed by the key, under
the human readable part spark on mainnet and sparkrt on regtest. -/
theorem getSparkAddressFromPublicKey_spec (publicKey : Bytes) (network : Network) :
    (getSparkAddressFromPublicKey publicKey network
        = Except.error SparkError.publicKeyFormatError
      ↔ publicKey.length ≠ 33)
    ∧ (publicKey.length = 33 →
        ∃ s, bech32mEncode
              (match network with
               | Network.mainnet => "spark"
               | Network.regtest => "sparkrt")
              (bech32ToWords (10 :: 33 :: publicKey)) = Except.ok s
          ∧ getSparkAddressFromPublicKey publicKey network = Except.ok s) := by
  have hpos : publicKey.length = 33 →
      ∃ s, bech32mEncode
            (match network with
             | Network.mainnet => "spark"
             | Network.regtest => "sparkrt")
            (bech32ToWords (10 :: 33 :: publicKey)) = Except.ok s
        ∧ getSparkAddressFromPublicKey publicKey network = Except.ok s := by
    intro h33
    cases network with
    | mainnet =>
      obtain ⟨s, hs⟩ := sparkEncode_ok (10 :: 33 :: publicKey) "spark"
        (by simp [h33]) (Or.inl rfl)
      refine ⟨s, hs, ?_⟩
      unfold getSparkAddressFromPublicKey
      rw [if_neg (by omega)]
      simp only [reduceIte, hs, liftBechResult]
    | regtest =>
      obtain ⟨s, hs⟩ := sparkEncode_ok (10 :: 33 :: publicKey) "sparkrt"
        (by simp [h33]) (Or.inr rfl)
      refine ⟨s, hs, ?_⟩
      unfold getSparkAddressFromPublicKey
      rw [if_neg (by omega)]
      simp only [reduceCtorEq, reduceIte, hs, liftBechResult]
  refine ⟨⟨?_, ?_⟩, hpos⟩
  · intro h h33
    obtain ⟨s, _, hs⟩ := hpos h33
    rw [hs] at h
    exact absurd h (by simp)
  · intro hne
    unfold getSparkAddressFromPublicKey
    rw [if_pos hne]

/-- C4 witness at a 33-byte all-zero key on mainnet. -/
theorem getSparkAddressFromPublicKey_spec_witness :
    (List.replicate 33 0).length = 33
    ∧ ∃ s, bech32mEncode "spark" (bech32ToWords (10 :: 33 :: List.replicate 33 0))
          = Except.ok s
        ∧ getSparkAddressFromPublicKey (List.replicate 33 0) Network.mainnet
          = Except.ok s :=
  ⟨by simp,
   (getSparkAddressFromPublicKey_spec (List.replicate 33 0) Network.mainnet).2 (by simp)⟩

/-- C9: on a 33-byte input getSparkAddressFromPublicKey always succeeds,
whatever the byte contents; the length comparison is the only validation
of the key. -/
theorem getSparkAddressFromPublicKey_total (publicKey : Bytes) (network : Network)
    (h33 : publicKey.length = 33) :
    ∃ s, getSparkAddressFromPublicKey publicKey network = Except.ok s := by
  cases network with
  | mainnet =>
    obtain ⟨s, hs⟩ := sparkEncode_ok (10 :: 33 :: publicKey) "spark"
      (by simp [h33]) (Or.inl rfl)
    refine ⟨s, ?_⟩
    unfold getSparkAddressFromPublicKey
    rw [if_neg (by omega)]
    simp only [reduceIte, hs, liftBechResult]
  | regtest =>
    obtain ⟨s, hs⟩ := sparkEncode_ok (10 :: 33 :: publicKey) "sparkrt"
      (by simp [h33]) (Or.inr rfl)
    refine ⟨s, ?_⟩
    unfold getSparkAddressFromPublicKey
    rw [if_neg (by omega)]
    simp only [reduceCtorEq, reduceIte, hs, liftBechResult]

/-- C9 witness: a 33-byte key of 255 bytes, which is no valid curve point
and has no 0x02 or 0x03 lead byte, still encodes. -/
theorem getSparkAddressFromPublicKey_total_witness :
    ∃ s, getSparkAddressFromPublicKey (List.replicate 33 255) Network.regtest
      = Except.ok s :=
  getSparkAddressFromPublicKey_total (List.replicate 33 255) Network.regtest (by simp)

/-- C5: a decode failure propagates as AddressFormatError; on a
successful decode, NetworkError occurs exactly for the prefix tb and
UnknownPrefixError exactly for a prefix that is none of tb, bc, bcrt,
both decided before any witness-version or payload-length check. -/
theorem getSparkAddressFromTaproot_prefix_errors (s : String) :
    (∀ e, bech32mDecode s = Except.error e →
        getSparkAddressFromTaproot s = Except.error (SparkError.addressFormatError e))
    ∧ (∀ hrp words, bech32mDecode s = Except.ok (hrp, words) →
        ((getSparkAddressFromTaproot s = Except.error SparkError.networkError
            ↔ hrp = "tb")
          ∧ (getSparkAddressFromTaproot s = Except.error SparkError.unknownPrefixError
            ↔ (hrp ≠ "tb" ∧ hrp ≠ "bc" ∧ hrp ≠ "bcrt")))) := by
  refine ⟨?_, ?_⟩
  · intro e he
    unfold getSparkAddressFromTaproot
    rw [he]
  · intro hrp words hdec
    unfold getSparkAddressFromTaproot
    rw [hdec]
    dsimp only
    by_cases htb : hrp = "tb"
    · subst htb
      simp
    · rw [if_neg htb]
      by_cases hun : hrp ≠ "bc" ∧ hrp ≠ "bcrt"
      · rw [if_pos hun]
        constructor
        · simp [htb]
        · simp [htb, hun.1, hun.2]
      · rw [if_neg hun]
        have hne := sparkFromTaprootWords_ne hrp words
        constructor
        · constructor
          · intro h
            exact absurd h hne.1
          · intro h
            exact absurd h htb
        · constructor
          · intro h
            exact absurd h hne.2
          · rintro ⟨_, h2, h3⟩
            exact absurd ⟨h2, h3⟩ hun

set_option maxRecDepth 100000 in
/-- C5 witness: a valid bech32m string with prefix tb yields
NetworkError, and a string with no separator propagates the decode
failure as AddressFormatError. -/
theorem getSparkAddressFromTaproot_prefix_errors_witness :
    getSparkAddressFromTaproot "tb1pzry9x83lu2gg"
        = Except.error SparkError.networkError
    ∧ getSparkAddressFromTaproot "invalid-address"
        = Except.error (SparkError.addressFormatError "No separator character") := by
  constructor
  · exact ((getSparkAddressFromTaproot_prefix_errors "tb1pzry9x83lu2gg").2
      "tb" [1, 2, 3, 4, 5, 6, 7] (by rfl)).1.mpr rfl
  · exact (getSparkAddressFromTaproot_prefix_errors "invalid-address").1
      "No separator character" (by rfl)

/-- C6: after a successful decode with prefix bc or bcrt, a first data
word other than 1 fails as AddressFormatError; with first word 1, a
words-to-bytes conversion failure propagates as AddressFormatError, a
payload of length other than 32 fails as AddressFormatError, and a
32-byte payload succeeds. -/
theorem getSparkAddressFromTaproot_version_length
    (s hrp : String) (words : List Nat)
    (hdec : bech32mDecode s = Except.ok (hrp, words))
    (hhrp : hrp = "bc" ∨ hrp = "bcrt") :
    (words.headD 99 ≠ 1 →
        getSparkAddressFromTaproot s
          = Except.error (SparkError.addressFormatError
              "Not valid version for taproot address"))
    ∧ (words.headD 99 = 1 → ∀ e, bech32FromWords (words.drop 1) = Except.error e →
        getSparkAddressFromTaproot s = Except.error (SparkError.addressFormatError e))
    ∧ (words.headD 99 = 1 → ∀ bs, bech32FromWords (words.drop 1) = Except.ok bs →
        bs.length ≠ 32 →
        getSparkAddressFromTaproot s
          = Except.error (SparkError.addressFormatError "Invalid public key length"))
    ∧ (words.headD 99 = 1 → ∀ bs, bech32FromWords (words.drop 1) = Except.ok bs →
        bs.length = 32 →
        ∃ out, getSparkAddressFromTaproot s = Except.ok out) := by
  have hred : getSparkAddressFromTaproot s = sparkFromTaprootWords hrp words := by
    unfold getSparkAddressFromTaproot
    rw [hdec]
    dsimp only
    rcases hhrp with h | h <;> subst h <;> simp
  rw [hred]
  unfold sparkFromTaprootWords
  refine ⟨?_, ?_, ?_, ?_⟩
  · intro hv
    rw [if_pos hv]
  · intro hv e he
    have hcond : ¬(words.headD 99 ≠ 1) := by simpa using hv
    rw [if_neg hcond]
    simp only [he]
  · intro hv bs hbs h32
    have hcond : ¬(words.headD 99 ≠ 1) := by simpa using hv
    rw [if_neg hcond]
    simp only [hbs]
    rw [if_pos h32]
  · intro hv bs hbs h32
    have hcond : ¬(words.headD 99 ≠ 1) := by simpa using hv
    rw [if_neg hcond]
    simp only [hbs]
    have h32c : ¬(bs.length ≠ 32) := by omega
    rw [if_neg h32c]
    have hhrp2 : (if hrp = "bc" then "spark" else "sparkrt") = "spark"
        ∨ (if hrp = "bc" then "spark" else "sparkrt") = "sparkrt" := by
      split <;> simp
    obtain ⟨out, hout⟩ := sparkEncode_ok (10 :: 33 :: 2 :: bs)
      (if hrp = "bc" then "spark" else "sparkrt") (by simp [h32]) hhrp2
    simp only [hout, liftBechResult]
    exact ⟨out, rfl⟩

set_option maxRecDepth 100000 in
/-- C6 witness: a taproot address encoding thirty-two zero bytes with
witness version 1 under prefix bc converts successfully. -/
theorem getSparkAddressFromTaproot_version_length_witness :
    ∃ out, getSparkAddressFromTaproot
        "bc1pqqqqqqqqqqqqqqqqqqqqqqqqqqqqqqqqqqqqqqqqqqqqqqqqqqqqpqqenm"
      = Except.ok out := by
  exact (getSparkAddressFromTaproot_version_length
      "bc1pqqqqqqqqqqqqqqqqqqqqqqqqqqqqqqqqqqqqqqqqqqqqqqqqqqqqpqqenm"
      "bc" (1 :: List.replicate 52 0) (by rfl) (Or.inl rfl)).2.2.2
    (by rfl) (List.replicate 32 0) (by rfl) (by rfl)

set_option maxRecDepth 400000 in
/-- C7: the two fixed vectors of the test suite, and in general the
output is the bech32m encoding of the payload 0x0a 0x21 0x02 followed by
the thirty-two decoded bytes, with prefix bc mapped to spark and bcrt to
sparkrt. -/
theorem getSparkAddressFromTaproot_payload :
    getSparkAddressFromTaproot
        "bc1pvluhspufxmuus9wh3dshxhxfg3656c9mwfw85scaydyp7sk9800sl4h5ae"
      = Except.ok "spark1pgssyele0qrcjdheeq2a0zmpwdwvj3r4f4stkuju0fp36g6grapv2w7l8am2cp"
    ∧ getSparkAddressFromTaproot
        "bcrt1p47kh0ff29d3rjw2n43vxqgmrgv9az562x37x6dp4ehyqq7ezyhcqlz5y42"
      = Except.ok "sparkrt1pgss9tadw7jj52mz8yu48tzcvq3kxsct69f55drud56rtnwgqpajyf0stj62w6"
    ∧ (∀ s hrp words bs,
        bech32mDecode s = Except.ok (hrp, words) →
        (hrp = "bc" ∨ hrp = "bcrt") →
        words.headD 99 = 1 →
        bech32FromWords (words.drop 1) = Except.ok bs →
        bs.length = 32 →
        ∃ out, bech32mEncode (if hrp = "bc" then "spark" else "sparkrt")
            (bech32ToWords (10 :: 33 :: 2 :: bs)) = Except.ok out
          ∧ getSparkAddressFromTaproot s = Except.ok out) := by
  refine ⟨by rfl, by rfl, ?_⟩
  intro s hrp words bs hdec hhrp hv hbs h32
  have hred : getSparkAddressFromTaproot s = sparkFromTaprootWords hrp words := by
    unfold getSparkAddressFromTaproot
    rw [hdec]
    dsimp only
    rcases hhrp with h | h <;> subst h <;> simp
  have hhrp2 : (if hrp = "bc" then "spark" else "sparkrt") = "spark"
      ∨ (if hrp = "bc" then "spark" else "sparkrt") = "sparkrt" := by
    split <;> simp
  obtain ⟨out, hout⟩ := sparkEncode_ok (10 :: 33 :: 2 :: bs)
    (if hrp = "bc" then "spark" else "sparkrt") (by simp [h32]) hhrp2
  refine ⟨out, hout, ?_⟩
  rw [hred]
  unfold sparkFromTaprootWords
  have hcond : ¬(words.headD 99 ≠ 1) := by simpa using hv
  rw [if_neg hcond]
  simp only [hbs]
  have h32c : ¬(bs.length ≠ 32) := by omega
  rw [if_neg h32c]
  simp only [hout, liftBechResult]

set_option maxRecDepth 100000 in
/-- C7 witness: the general payload characterisation applied to a
concrete bc taproot address carrying thirty-two zero bytes. -/
theorem getSparkAddressFromTaproot_payload_witness :
    ∃ out, bech32mEncode "spark" (bech32ToWords (10 :: 33 :: 2 :: List.replicate 32 0))
        = Except.ok out
      ∧ getSparkAddressFromTaproot
          "bc1pqqqqqqqqqqqqqqqqqqqqqqqqqqqqqqqqqqqqqqqqqqqqqqqqqqqqpqqenm"
        = Except.ok out := by
  have h := getSparkAddressFromTaproot_payload.2.2
    "bc1pqqqqqqqqqqqqqqqqqqqqqqqqqqqqqqqqqqqqqqqqqqqqqqqqqqqqpqqenm"
    "bc" (1 :: List.replicate 52 0) (List.replicate 32 0)
    (by rfl) (Or.inl rfl) (by rfl) (by rfl) (by rfl)
  simpa using h

/-- C1: whenever the Taproot generator succeeds (for backends whose
getPublicKey returns a 33-byte compressed key with lead byte 2 or 3, and
whose negation flips that lead byte, as secp256k1 does), the identity
public key is 33 bytes with lead byte 2, and the private key is negated
exactly when the first tweaked public key had lead byte 3. -/
theorem taproot_identity_evenY (B : Bip32) (C : CurveOps)
    (g : TaprootOutputKeysGenerator) (seed : Bytes) (accountNumber : Nat)
    (r : DerivedKeys)
    (hlen : ∀ k, (C.getPublicKey k).length = 33)
    (hhead : ∀ k, (C.getPublicKey k).headD 0 = 2 ∨ (C.getPublicKey k).headD 0 = 3)
    (hflip : ∀ k, (C.getPublicKey (C.privateNegate k)).headD 0
        ≠ (C.getPublicKey k).headD 0)
    (hok : taprootDeriveKeysFromSeed B C g seed accountNumber = Except.ok r) :
    r.identityKey.publicKey.length = 33
    ∧ r.identityKey.publicKey.headD 0 = 2
    ∧ ((C.getPublicKey (C.taprootTweakPrivKey
          ((B.derive (B.fromMasterSeed seed)
            (taprootResolvedPath g.useAddressIndex accountNumber)).privateKey.getD []))).headD 0
            = 3
        → r.identityKey.privateKey
            = C.privateNegate (C.taprootTweakPrivKey
                ((B.derive (B.fromMasterSeed seed)
                  (taprootResolvedPath g.useAddressIndex accountNumber)).privateKey.getD [])))
    ∧ ((C.getPublicKey (C.taprootTweakPrivKey
          ((B.derive (B.fromMasterSeed seed)
            (taprootResolvedPath g.useAddressIndex accountNumber)).privateKey.getD []))).headD 0
            ≠ 3
        → r.identityKey.privateKey
            = C.taprootTweakPrivKey
                ((B.derive (B.fromMasterSeed seed)
                  (taprootResolvedPath g.useAddressIndex accountNumber)).privateKey.getD [])) := by
  simp only [taprootDeriveKeysFromSeed] at hok
  split at hok
  · simp at hok
  · split at hok
    · simp at hok
    · simp only [Except.ok.injEq] at hok
      subst hok
      by_cases hc : (C.getPublicKey (C.taprootTweakPrivKey
          ((B.derive (B.fromMasterSeed seed)
            (taprootResolvedPath g.useAddressIndex accountNumber)).privateKey.getD []))).headD 0
            = 3
      · dsimp only
        simp only [if_pos hc]
        refine ⟨hlen _, ?_, fun _ => by trivial, fun hn => absurd hc hn⟩
        rcases hhead (C.privateNegate (C.taprootTweakPrivKey
            ((B.derive (B.fromMasterSeed seed)
              (taprootResolvedPath g.useAddressIndex accountNumber)).privateKey.getD []))) with h | h
        · exact h
        · exact absurd (h.trans hc.symm) (hflip _)
      · dsimp only
        simp only [if_neg hc]
        refine ⟨hlen _, ?_, fun h3 => absurd h3 hc, fun _ => by trivial⟩
        rcases hhead (C.taprootTweakPrivKey
            ((B.derive (B.fromMasterSeed seed)
              (taprootResolvedPath g.useAddressIndex accountNumber)).privateKey.getD [])) with h | h
        · exact h
        · exact absurd h hc

/-- C1 witness: the toy backend satisfies the curve axioms, and the
derivation succeeds and yields an identity key with even-y lead byte. -/
theorem taproot_identity_evenY_witness :
    ∃ r, taprootDeriveKeysFromSeed toyBip32 toyCurve { useAddressIndex := false } [1] 0
        = Except.ok r
      ∧ r.identityKey.publicKey.length = 33
      ∧ r.identityKey.publicKey.headD 0 = 2 := by
  obtain ⟨h1, h2, -, -⟩ := taproot_identity_evenY toyBip32 toyCurve
    { useAddressIndex := false } [1] 0 _
    toyCurve_publicKey_length toyCurve_publicKey_headD toyCurve_negate_flips rfl
  exact ⟨_, rfl, h1, h2⟩

/-- Helper: an option known to be distinct from none equals some of its
getD unwrapping. -/
lemma some_getD_of_ne_none {o : Option Bytes} (h : o ≠ none) (d : Bytes) :
    o = some (o.getD d) := by
  cases o with
  | none => exact absurd rfl h
  | some v => rfl

/-- C2: on success, the identity node sits at the resolved template path
(placeholder replaced by the account number, picked by the address-index
flag), and the signing, deposit and static-deposit nodes are the hardened
children 1h, 2h, 3h appended to that path; for the Taproot generator the
three children hang off the untweaked internal-key path. -/
theorem deriveKeysFromSeed_paths (B : Bip32) (C : CurveOps)
    (tplA tplB : String) (g : DerivationPathKeysGenerator)
    (t : TaprootOutputKeysGenerator) (seed : Bytes) (n : Nat) (r rt : DerivedKeys)
    (hok : deriveKeysFromSeedGeneric B tplA tplB g seed n = Except.ok r)
    (hokT : taprootDeriveKeysFromSeed B C t seed n = Except.ok rt) :
    ((B.derive (B.fromMasterSeed seed)
        (resolvedTemplatePath tplA tplB g.useAddressIndex n)).privateKey
        = some r.identityKey.privateKey
      ∧ (B.derive (B.fromMasterSeed seed)
          (resolvedTemplatePath tplA tplB g.useAddressIndex n)).publicKey
        = some r.identityKey.publicKey
      ∧ r.signingHDKey.hdKey
        = B.derive (B.fromMasterSeed seed)
            (resolvedTemplatePath tplA tplB g.useAddressIndex n ++ "/1\x27")
      ∧ (B.derive (B.fromMasterSeed seed)
          (resolvedTemplatePath tplA tplB g.useAddressIndex n ++ "/2\x27")).privateKey
        = some r.depositKey.privateKey
      ∧ (B.derive (B.fromMasterSeed seed)
          (resolvedTemplatePath tplA tplB g.useAddressIndex n ++ "/2\x27")).publicKey
        = some r.depositKey.publicKey
      ∧ r.staticDepositHDKey.hdKey
        = B.derive (B.fromMasterSeed seed)
            (resolvedTemplatePath tplA tplB g.useAddressIndex n ++ "/3\x27"))
    ∧ (rt.signingHDKey.hdKey
        = B.derive (B.fromMasterSeed seed)
            (taprootResolvedPath t.useAddressIndex n ++ "/1\x27")
      ∧ (B.derive (B.fromMasterSeed seed)
          (taprootResolvedPath t.useAddressIndex n ++ "/2\x27")).privateKey
        = some rt.depositKey.privateKey
      ∧ (B.derive (B.fromMasterSeed seed)
          (taprootResolvedPath t.useAddressIndex n ++ "/2\x27")).publicKey
        = some rt.depositKey.publicKey
      ∧ rt.staticDepositHDKey.hdKey
        = B.derive (B.fromMasterSeed seed)
            (taprootResolvedPath t.useAddressIndex n ++ "/3\x27")) := by
  constructor
  · simp only [deriveKeysFromSeedGeneric] at hok
    split at hok
    · simp at hok
    · rename_i hmaster
      split at hok
      · simp at hok
      · rename_i hmiss
        simp only [Bool.or_eq_true, Option.isNone_iff_eq_none, not_or] at hmiss
        obtain ⟨⟨⟨⟨⟨⟨⟨hip, hiq⟩, hsp⟩, hsq⟩, hdp⟩, hdq⟩, hxp⟩, hxq⟩ := hmiss
        simp only [Except.ok.injEq] at hok
        subst hok
        dsimp only
        exact ⟨some_getD_of_ne_none hip [], some_getD_of_ne_none hiq [], rfl,
          some_getD_of_ne_none hdp [], some_getD_of_ne_none hdq [], rfl⟩
  · simp only [taprootDeriveKeysFromSeed] at hokT
    split at hokT
    · simp at hokT
    · split at hokT
      · simp at hokT
      · rename_i hmiss
        simp only [Bool.or_eq_true, Option.isNone_iff_eq_none, not_or] at hmiss
        obtain ⟨⟨⟨⟨⟨hsp, hsq⟩, hdp⟩, hdq⟩, hxp⟩, hxq⟩ := hmiss
        simp only [Except.ok.injEq] at hokT
        subst hokT
        dsimp only
        exact ⟨rfl, some_getD_of_ne_none hdp [], some_getD_of_ne_none hdq [], rfl⟩

/-- C2 witness: both generators succeed on the toy backend, and the
signing nodes sit at the hardened index 1 child of the resolved path. -/
theorem deriveKeysFromSeed_paths_witness :
    ∃ r rt,
      deriveKeysFromSeedGeneric toyBip32 "m/84\x27/0\x27/0\x27/0/?"
          "m/84\x27/0\x27/?\x27/0/0" { useAddressIndex := true } [1] 0 = Except.ok r
      ∧ taprootDeriveKeysFromSeed toyBip32 toyCurve { useAddressIndex := false } [1] 0
          = Except.ok rt
      ∧ r.signingHDKey.hdKey
          = toyBip32.derive (toyBip32.fromMasterSeed [1])
              (resolvedTemplatePath "m/84\x27/0\x27/0\x27/0/?"
                "m/84\x27/0\x27/?\x27/0/0" true 0 ++ "/1\x27")
      ∧ rt.signingHDKey.hdKey
          = toyBip32.derive (toyBip32.fromMasterSeed [1])
              (taprootResolvedPath false 0 ++ "/1\x27") := by
  refine ⟨_, _, rfl, rfl, ?_, ?_⟩
  · exact (deriveKeysFromSeed_paths toyBip32 toyCurve
      "m/84\x27/0\x27/0\x27/0/?" "m/84\x27/0\x27/?\x27/0/0"
      { useAddressIndex := true } { useAddressIndex := false }
      [1] 0 _ _ rfl rfl).1.2.2.1
  · exact (deriveKeysFromSeed_paths toyBip32 toyCurve
      "m/84\x27/0\x27/0\x27/0/?" "m/84\x27/0\x27/?\x27/0/0"
      { useAddressIndex := true } { useAddressIndex := false }
      [1] 0 _ _ rfl rfl).2.1

/-- C3 counterexample: with a backend whose node at the resolved Taproot
identity path has no public key (children and master complete), the
Taproot generator does not fail with SeedDerivationError; it returns a
complete bundle, so the identity node is never validated. -/
theorem taprootValidation_counterexample :
    (brokenBip32.derive (brokenBip32.fromMasterSeed [1])
        (taprootResolvedPath false 0)).publicKey = none
    ∧ taprootDeriveKeysFromSeed brokenBip32 toyCurve
        { useAddressIndex := false } [1] 0
      = Except.ok
          { identityKey := { privateKey := [1, 7], publicKey := 2 :: List.replicate 32 0 }
            signingHDKey :=
              { hdKey := { privateKey := some [1], publicKey := some [1], rest := [] }
                privateKey := [1], publicKey := [1] }
            depositKey := { privateKey := [1], publicKey := [1] }
            staticDepositHDKey :=
              { hdKey := { privateKey := some [1], publicKey := some [1], rest := [] }
                privateKey := [1], publicKey := [1] } } :=
  ⟨rfl, rfl⟩

/-- C3 amended: the factory-generated schemes fail with the
SeedDerivationError message about required keys exactly when the master
node is complete and one of the four derived nodes (identity, signing,
deposit, static deposit) misses a component; the Taproot generator does
so exactly when the master node is complete and one of its three child
nodes misses a component — the Taproot identity (internal-key) node is
not validated at all. -/
theorem derive_validation_amended (B : Bip32) (C : CurveOps)
    (tplA tplB : String) (g : DerivationPathKeysGenerator)
    (t : TaprootOutputKeysGenerator) (seed : Bytes) (n : Nat) :
    (deriveKeysFromSeedGeneric B tplA tplB g seed n
        = Except.error (SparkError.seedDerivationError
            "Failed to derive all required keys from seed")
      ↔ (((B.fromMasterSeed seed).privateKey ≠ none
            ∧ (B.fromMasterSeed seed).publicKey ≠ none)
          ∧ ((B.derive (B.fromMasterSeed seed)
                (resolvedTemplatePath tplA tplB g.useAddressIndex n)).privateKey = none
            ∨ (B.derive (B.fromMasterSeed seed)
                (resolvedTemplatePath tplA tplB g.useAddressIndex n)).publicKey = none
            ∨ (B.derive (B.fromMasterSeed seed)
                (resolvedTemplatePath tplA tplB g.useAddressIndex n ++ "/1\x27")).privateKey = none
            ∨ (B.derive (B.fromMasterSeed seed)
                (resolvedTemplatePath tplA tplB g.useAddressIndex n ++ "/1\x27")).publicKey = none
            ∨ (B.derive (B.fromMasterSeed seed)
                (resolvedTemplatePath tplA tplB g.useAddressIndex n ++ "/2\x27")).privateKey = none
            ∨ (B.derive (B.fromMasterSeed seed)
                (resolvedTemplatePath tplA tplB g.useAddressIndex n ++ "/2\x27")).publicKey = none
            ∨ (B.derive (B.fromMasterSeed seed)
                (resolvedTemplatePath tplA tplB g.useAddressIndex n ++ "/3\x27")).privateKey = none
            ∨ (B.derive (B.fromMasterSeed seed)
                (resolvedTemplatePath tplA tplB g.useAddressIndex n ++ "/3\x27")).publicKey = none)))
    ∧ (taprootDeriveKeysFromSeed B C t seed n
        = Except.error (SparkError.seedDerivationError
            "Failed to derive all required keys from seed")
      ↔ (((B.fromMasterSeed seed).privateKey ≠ none
            ∧ (B.fromMasterSeed seed).publicKey ≠ none)
          ∧ ((B.derive (B.fromMasterSeed seed)
                (taprootResolvedPath t.useAddressIndex n ++ "/1\x27")).privateKey = none
            ∨ (B.derive (B.fromMasterSeed seed)
                (taprootResolvedPath t.useAddressIndex n ++ "/1\x27")).publicKey = none
            ∨ (B.derive (B.fromMasterSeed seed)
                (taprootResolvedPath t.useAddressIndex n ++ "/2\x27")).privateKey = none
            ∨ (B.derive (B.fromMasterSeed seed)
                (taprootResolvedPath t.useAddressIndex n ++ "/2\x27")).publicKey = none
            ∨ (B.derive (B.fromMasterSeed seed)
                (taprootResolvedPath t.useAddressIndex n ++ "/3\x27")).privateKey = none
            ∨ (B.derive (B.fromMasterSeed seed)
                (taprootResolvedPath t.useAddressIndex n ++ "/3\x27")).publicKey = none))) := by
  constructor
  · simp only [deriveKeysFromSeedGeneric]
    split
    · rename_i hmaster
      simp only [Bool.or_eq_true, Option.isNone_iff_eq_none] at hmaster
      refine iff_of_false (by simp) ?_
      rintro ⟨⟨hp, hq⟩, -⟩
      rcases hmaster with h | h <;> [exact hp h; exact hq h]
    · rename_i hmaster
      simp only [Bool.or_eq_true, Option.isNone_iff_eq_none, not_or] at hmaster
      split
      · rename_i hmiss
        simp only [Bool.or_eq_true, Option.isNone_iff_eq_none] at hmiss
        refine iff_of_true rfl ⟨⟨hmaster.1, hmaster.2⟩, ?_⟩
        tauto
      · rename_i hmiss
        simp only [Bool.or_eq_true, Option.isNone_iff_eq_none, not_or] at hmiss
        refine iff_of_false (by simp) ?_
        rintro ⟨-, hdis⟩
        tauto
  · simp only [taprootDeriveKeysFromSeed]
    split
    · rename_i hmaster
      simp only [Bool.or_eq_true, Option.isNone_iff_eq_none] at hmaster
      refine iff_of_false (by simp) ?_
      rintro ⟨⟨hp, hq⟩, -⟩
      rcases hmaster with h | h <;> [exact hp h; exact hq h]
    · rename_i hmaster
      simp only [Bool.or_eq_true, Option.isNone_iff_eq_none, not_or] at hmaster
      split
      · rename_i hmiss
        simp only [Bool.or_eq_true, Option.isNone_iff_eq_none] at hmiss
        refine iff_of_true rfl ⟨⟨hmaster.1, hmaster.2⟩, ?_⟩
        tauto
      · rename_i hmiss
        simp only [Bool.or_eq_true, Option.isNone_iff_eq_none, not_or] at hmiss
        refine iff_of_false (by simp) ?_
        rintro ⟨-, hdis⟩
        tauto

/-- C8: with byte-identical seeds, equal account numbers and generators
carrying the same useAddressIndex flag, two calls of deriveKeysFromSeed
return identical bundles, for the factory schemes and for Taproot. -/
theorem deriveKeysFromSeed_deterministic (B : Bip32) (C : CurveOps)
    (tplA tplB : String) (g1 g2 : DerivationPathKeysGenerator)
    (t1 t2 : TaprootOutputKeysGenerator) (seed1 seed2 : Bytes) (n1 n2 : Nat)
    (hg : g1.useAddressIndex = g2.useAddressIndex)
    (ht : t1.useAddressIndex = t2.useAddressIndex)
    (hseed : seed1 = seed2) (hn : n1 = n2) :
    deriveKeysFromSeedGeneric B tplA tplB g1 seed1 n1
      = deriveKeysFromSeedGeneric B tplA tplB g2 seed2 n2
    ∧ taprootDeriveKeysFromSeed B C t1 seed1 n1
      = taprootDeriveKeysFromSeed B C t2 seed2 n2 := by
  cases g1
  cases g2
  cases t1
  cases t2
  simp only at hg ht
  subst hg
  subst ht
  subst hseed
  subst hn
  exact ⟨rfl, rfl⟩

/-- C8 witness: two equal-flag instantiations at the toy backend. -/
theorem deriveKeysFromSeed_deterministic_witness :
    deriveKeysFromSeedGeneric toyBip32 "m/84\x27/0\x27/0\x27/0/?"
        "m/84\x27/0\x27/?\x27/0/0" { useAddressIndex := true } [1] 0
      = deriveKeysFromSeedGeneric toyBip32 "m/84\x27/0\x27/0\x27/0/?"
        "m/84\x27/0\x27/?\x27/0/0" { useAddressIndex := true } [1] 0
    ∧ taprootDeriveKeysFromSeed toyBip32 toyCurve { useAddressIndex := false } [1] 0
      = taprootDeriveKeysFromSeed toyBip32 toyCurve { useAddressIndex := false } [1] 0 :=
  deriveKeysFromSeed_deterministic toyBip32 toyCurve
    "m/84\x27/0\x27/0\x27/0/?" "m/84\x27/0\x27/?\x27/0/0"
    { useAddressIndex := true } { useAddressIndex := true }
    { useAddressIndex := false } { useAddressIndex := false }
    [1] [1] 0 0 rfl rfl rfl rfl

/-- C10: the TaprootOutputKeysGenerator constructor defaults the
useAddressIndex flag to false, so a generator built with no argument
behaves as an explicit false one and resolves the account-form path with
the account number at the hardened account position. -/
theorem taprootDefault_accountForm (B : Bip32) (C : CurveOps)
    (seed : Bytes) (n : Nat) :
    taprootOutputKeysGeneratorDefault.useAddressIndex = false
    ∧ taprootDeriveKeysFromSeed B C taprootOutputKeysGeneratorDefault seed n
        = taprootDeriveKeysFromSeed B C { useAddressIndex := false } seed n
    ∧ taprootResolvedPath taprootOutputKeysGeneratorDefault.useAddressIndex n
        = "m/86\x27/0\x27/" ++ toString n ++ "\x27/0/0" :=
  ⟨rfl, rfl, rfl⟩
